import Mathlib

/-!
Verification of the loolwsd session-broker (src/loolwsd/LOOLWSD.cpp) against its
natural-language specification.  Messages and paths are modelled as lists of
characters; each definition below embeds one function or code region of the
source file, named after it where Lean allows.
-/

set_option autoImplicit false
set_option maxRecDepth 8192

namespace Loolwsd

/-- A byte/character string, as carried on the wire or in the work queue. -/
abbrev Str := List Char

/-- Modelled from the spec: `LOOLProtocol::getFirstLine` (declared in
LOOLProtocol.hpp, not part of src/) returns the first line of a message,
i.e. the characters before the first newline. -/
def getFirstLine (msg : Str) : Str := msg.takeWhile (fun c => c != '\n')

/-- Whitespace test used when trimming tokens. -/
def isSpaceChar (c : Char) : Bool :=
  c == ' ' || c == '\t' || c == '\n' || c == '\r' || c == '\x0b' || c == '\x0c'

/-- Trim leading and trailing whitespace from a token. -/
def trimStr (s : Str) : Str :=
  ((s.dropWhile isSpaceChar).reverse.dropWhile isSpaceChar).reverse

/-- Modelled from the spec: `Poco::StringTokenizer` on separator `" "` with
`TOK_IGNORE_EMPTY | TOK_TRIM`, as used throughout LOOLWSD.cpp: split on
spaces, trim each piece, drop empty pieces. -/
def tokensOf (line : Str) : List Str :=
  ((line.splitOn ' ').map trimStr).filter (fun t => t != [])

/-- Parse a nonempty all-digit string as a natural number. -/
def digitsToNat? (ds : Str) : Option Nat :=
  if ds ≠ [] ∧ ds.all (fun c => c.isDigit) then
    some (ds.foldl (fun acc c => acc * 10 + (c.toNat - 48)) 0)
  else none

/-- Modelled from the spec: `LOOLProtocol::getTokenInteger(token, name, value)`
(declared in LOOLProtocol.hpp, not part of src/) succeeds when `token` is
`name=<integer>`; the claims only involve positive sizes, so the model parses
nonnegative decimal values. -/
def getTokenInteger (token name : Str) : Option Nat :=
  if (name ++ ['=']).isPrefixOf token then digitsToNat? (token.drop (name.length + 1))
  else none

def strCanceltiles : Str := "canceltiles".toList
def strTile : Str := "tile".toList
def strTileSpace : Str := "tile ".toList
def strIdEq : Str := "id=".toList
def strEof : Str := "eof".toList
def strNextmessageColon : Str := "nextmessage:".toList
def strSize : Str := "size".toList
def strSizeEq : Str := "size=".toList

/-! Concrete frames, queue elements, paths and commands used as test inputs
by the witnesses below. -/

def strTileX1 : Str := "tile x=1".toList
def strTileId3 : Str := "tile id=3".toList
def strKeyA : Str := "key a".toList
def strTwoLine : Str := "key a\npayload".toList
def strNm5 : Str := "nextmessage: size=5".toList
def strNm3nl : Str := "nextmessage: size=3\n".toList
def strAbc : Str := "abc".toList
def strThree : Str := "3".toList
def strCmdAB : Str := "a b".toList
def strCmdADB : Str := "a d/b".toList
def strDslashB : Str := "d/b".toList
def strPathOk : Str := "ok".toList
def strPathBad : Str := "bad".toList
def strPathF : Str := "f".toList

/-- `pat` occurs as a contiguous substring of `s`
(`std::string::find(pat) != npos`). -/
def containsSub (pat s : Str) : Bool :=
  s.tails.any (fun t => pat.isPrefixOf t)

/-- The prune predicate of LOOLWSD.cpp lines 238-240 (and 875-877): the element
starts with the five characters `tile ` and nowhere contains `id=`. -/
def cancelPrunePred (x : Str) : Bool :=
  strTileSpace.isPrefixOf x && !(containsSub strIdEq x)

/-- `queue.remove_if` with the canceltiles predicate: keep, in order, exactly
the elements the predicate rejects (tsqueue::remove_if). -/
def cancelPrune (q : List Str) : List Str :=
  q.filter (fun x => !(cancelPrunePred x))

/-- The prune predicate as the specification words it: the element's first
token is `tile` and the element does not contain the substring `id=`.
Defined for comparison with `cancelPrunePred`, which embeds the source. -/
def specCancelPred (x : Str) : Bool :=
  (match (tokensOf x).head? with
   | some t => t == strTile
   | none => false) && !(containsSub strIdEq x)

/-- Session polarity of the master-side WebSocket receiver
(LOOLSession::Kind, restricted to the two master-side values). -/
inductive Kind where
  | ToClient
  | ToPrisoner
deriving DecidableEq, Repr

/-- What the receiver loop of `WebSocketRequestHandler::handleRequest`
(lines 227-272) decides to do with one received non-close frame. -/
inductive Action where
  /-- lines 236-244: prune the queue, then forward the raw frame to
  `handleInput` synchronously. -/
  | pruneForward
  /-- line 247: append the first line to the work queue. -/
  | enqueue (line : Str)
  /-- lines 255-265: read one follow-up frame of capacity `size` and hand it
  to `handleInput`. -/
  | readNext (size : Nat)
  /-- line 268: hand the frame to `handleInput` directly. -/
  | direct
deriving DecidableEq, Repr

/-- The `nextmessage:` test of line 255: exactly two tokens, the first being
`nextmessage:`, the second carrying `size=<N>`. -/
def nextmessageSize (tokens : List Str) : Option Nat :=
  match tokens with
  | [t0, t1] => if t0 = strNextmessageColon then getTokenInteger t1 strSize else none
  | _ => none

/-- The dispatch of the receiver loop, lines 229-271 of LOOLWSD.cpp. -/
def dispatch (kind : Kind) (frame : Str) : Action :=
  if kind = Kind.ToClient ∧ (getFirstLine frame).length = frame.length then
    if tokensOf (getFirstLine frame) = [strCanceltiles] then Action.pruneForward
    else Action.enqueue (getFirstLine frame)
  else
    match nextmessageSize (tokensOf (getFirstLine frame)) with
    | some size => if 0 < size then Action.readNext size else Action.direct
    | none => Action.direct

/-- Observable state of one ToClient session on the master: its work queue and
the frames the receiver has passed to `handleInput` synchronously. -/
structure SessState where
  queue : List Str
  handled : List Str
deriving DecidableEq, Repr

/-- Effect of one received ToClient frame on the session state.  A
`readNext` action consumes a second frame, whose delivery is modelled
separately by `deliverLarge`. -/
def stepToClient (s : SessState) (frame : Str) : SessState :=
  match dispatch Kind.ToClient frame with
  | Action.pruneForward =>
      { queue := cancelPrune s.queue, handled := s.handled ++ [frame] }
  | Action.enqueue line =>
      { queue := s.queue ++ [line], handled := s.handled }
  | Action.readNext _ => s
  | Action.direct =>
      { queue := s.queue, handled := s.handled ++ [frame] }

/-- Lines 257-264: the follow-up frame of a `nextmessage:` escape is received
into a buffer of capacity `size` and, when nonempty and not a close frame,
handed to `handleInput`; the list returned is what `handleInput` sees. -/
def deliverLarge (size : Nat) (next : Str) (closeFlag : Bool) : List Str :=
  let received := next.take size
  if 0 < received.length && !closeFlag then [received] else []

/-- `QueueHandler::run` (lines 154-164): repeatedly pop the queue; stop on the
`"eof"` sentinel, or after an item for which `handleInput` returns false.
The result is the list of items actually passed to `handleInput`, in order. -/
def consumerRun (handle : Str → Bool) : List Str → List Str
  | [] => []
  | x :: rest =>
      if x = strEof then []
      else if handle x then x :: consumerRun handle rest
      else [x]

/-- `tsqueue::clear()`: drop every element. -/
def clearQueue (q : List Str) : List Str :=
  match q with
  | _ => []

/-- `tsqueue::put(s)`: append to the tail. -/
def putQueue (q : List Str) (s : Str) : List Str := q ++ [s]

/-- Lines 298-299 (and 887-888 on the child side): on receiver termination the
queue is cleared and then the single sentinel `"eof"` is appended. -/
def onSessionTerminate (q : List Str) : List Str :=
  putQueue (clearQueue q) strEof

/-- `LOOLWSD::componentMain` lines 860-861: the child-side receiver reads each
frame into a 1024-byte buffer; the bytes actually delivered are the first
1024 of the frame. -/
def childReceive (frame : Str) : Str := frame.take 1024

/-- Line 869: `assert(firstLine.size() == static_cast<std::string::size_type>(n))`
evaluated on the bytes the child-side receiver delivered. -/
def childAssert (frame : Str) : Bool :=
  (getFirstLine (childReceive frame)).length == (childReceive frame).length

/-- `(((Poco::UInt64)_rng.next()) << 32) | _rng.next() | 1` at lines 937 and
1107: two 32-bit pseudorandom draws combined into a 64-bit ChildId with the
low bit forced to 1. -/
def makeChildId (a b : Nat) : Nat :=
  ((a % 2 ^ 32) <<< 32) ||| (b % 2 ^ 32) ||| 1

/-- Supervisor state read by the reaper loop of `LOOLWSD::desktopMain`
(lines 1035-1061): the child table `MasterProcessSession::_childProcesses`
and the two counters the spawn condition consults. -/
structure SupState where
  childProcesses : List Nat
  availableChildSessions : Nat
  pendingPreSpawned : Nat
deriving DecidableEq, Repr

/-- What one reaper iteration was observed to do. -/
structure ReaperObs where
  knownChildDied : Bool
  spawned : Bool
deriving DecidableEq, Repr

/-- Lines 1051-1053: a death of a known child is detected (and logged) when
the waited status is terminal and the pid is in the child table.  `waited` is
`none` when `waitpid` returned no exited child. -/
def reaperDetect (s : SupState) (waited : Option (Nat × Bool)) : Bool :=
  match waited with
  | some p => p.2 && s.childProcesses.contains p.1
  | none => false

/-- `LOOLWSD::createComponent` (lines 903-922) as seen by the parent: the new
pid is appended to the child table; `addPendingChildrem` is modelled from the
spec (its body lives in LOOLSession.cpp, not under src/): it counts a child
forked but not yet connected, so the pending counter is incremented. -/
def createComponent (s : SupState) (newPid : Nat) : SupState :=
  { s with childProcesses := s.childProcesses ++ [newPid],
           pendingPreSpawned := s.pendingPreSpawned + 1 }

/-- One iteration of the reaper loop body (lines 1037-1060): non-blocking
wait (its outcome is the input `waited`), detection of known-child deaths,
and a spawn of exactly one child when no session is available and none is
pending.  Nothing is ever removed from the child table. -/
def reaperStep (s : SupState) (waited : Option (Nat × Bool)) (newPid : Nat) :
    SupState × ReaperObs :=
  if s.availableChildSessions == 0 && s.pendingPreSpawned == 0 then
    (createComponent s newPid, ⟨reaperDetect s waited, true⟩)
  else (s, ⟨reaperDetect s waited, false⟩)

/-- The loop guard of line 1035: continue while the child table is nonempty. -/
def reaperContinues (s : SupState) : Bool :=
  decide (s.childProcesses ≠ [])

/-- The `typeflag` values `linkOrCopyFunction` handles (lines 671-720). -/
inductive FtwType where
  | F
  | DP
  | DNR
  | NS
  | SLN
deriving DecidableEq, Repr

/-- One entry delivered by the `nftw` walk inside the template tree: its path
(relative to the source root) and the outcomes of the syscalls the callback
makes on it. -/
structure Entry where
  path : Str
  typ : FtwType
  statOk : Bool
  utimeOk : Bool
deriving DecidableEq, Repr

/-- What one invocation of the callback does. -/
inductive StepRes where
  /-- callback returned 0; `linked` records whether a file hardlink was made. -/
  | proceed (linked : Bool)
  /-- callback returned 1: `nftw` stops, the process continues. -/
  | stop
  /-- `exit(1)`: jail construction is aborted. -/
  | exited
deriving DecidableEq, Repr

/-- `linkOrCopyFunction` (lines 653-722) on an entry strictly below the source
root: a regular file is hardlinked and on `link` failure the process exits
with status 1; a post-order directory has its times restored (errors stop the
walk); unreadable directories and stat failures stop the walk; a dangling
symlink is logged and skipped. -/
def linkOrCopyFunction (linkOk : Str → Bool) (e : Entry) : StepRes :=
  match e.typ with
  | FtwType.F => if linkOk e.path then StepRes.proceed true else StepRes.exited
  | FtwType.DP =>
      if e.statOk then (if e.utimeOk then StepRes.proceed false else StepRes.stop)
      else StepRes.stop
  | FtwType.DNR => StepRes.stop
  | FtwType.NS => StepRes.stop
  | FtwType.SLN => StepRes.proceed false

/-- Outcome of the whole `nftw` walk driven by `linkOrCopy` (lines 724-733),
carrying the paths of the files that were hardlinked before the walk ended. -/
inductive RunResult where
  | completed (files : List Str)
  | stopped (files : List Str)
  | exited (files : List Str)
deriving DecidableEq, Repr

/-- `linkOrCopy` (lines 724-733): run the callback over the walk order; a
nonzero callback return stops the walk, an `exit(1)` aborts the process. -/
def linkOrCopy (linkOk : Str → Bool) : List Entry → RunResult
  | [] => RunResult.completed []
  | e :: rest =>
      match linkOrCopyFunction linkOk e with
      | StepRes.exited => RunResult.exited []
      | StepRes.stop => RunResult.stopped []
      | StepRes.proceed linked =>
          match linkOrCopy linkOk rest with
          | RunResult.completed fs =>
              RunResult.completed (if linked then e.path :: fs else fs)
          | RunResult.stopped fs =>
              RunResult.stopped (if linked then e.path :: fs else fs)
          | RunResult.exited fs =>
              RunResult.exited (if linked then e.path :: fs else fs)

/-- `Poco::Path::parent()` on a path string: everything up to and including
the last separator (empty for a bare name). -/
def parentOf (p : Str) : Str :=
  (p.reverse.dropWhile (fun c => c != '/')).reverse

/-- The filesystem as the file-transfer handler sees it: regular files with
contents, and the set of directories. -/
structure FsState where
  files : List (Str × Str)
  dirs : List Str
deriving DecidableEq, Repr

/-- Look a path up among the regular files. -/
def lookupFile (files : List (Str × Str)) (p : Str) : Option Str :=
  match files with
  | [] => none
  | (q, c) :: rest => if q = p then some c else lookupFile rest p

/-- The reply `FileTransferHandler::transferFile` sends back. -/
inductive XferReply where
  | ok
  | errUsage
  | errMkdir
  | errCopy
deriving DecidableEq, Repr

/-- Lines 469-474: `link(src, dst)` succeeds when hardlinks are possible
(same filesystem, modelled by `linkAllowed`), the source exists and the
destination does not; on success the destination names the same contents.
On failure the handler only logs and falls through. -/
def linkStep (linkAllowed : Bool) (files : List (Str × Str)) (src dst : Str) :
    List (Str × Str) :=
  if linkAllowed && (lookupFile files src).isSome && (lookupFile files dst).isNone then
    (dst, (lookupFile files src).getD []) :: files
  else files

/-- Lines 477-489: when the destination still does not exist, copy the source
to it; `copyTo` throws when the source is missing, which the handler turns
into an error reply. -/
def copyFallback (files : List (Str × Str)) (src dst : Str) :
    XferReply × List (Str × Str) :=
  if (lookupFile files dst).isNone then
    match lookupFile files src with
    | some c => (XferReply.ok, (dst, c) :: files)
    | none => (XferReply.errCopy, files)
  else (XferReply.ok, files)

/-- `FileTransferHandler::transferFile` (lines 448-492): tokenize the command,
require exactly two tokens, create the destination's parent directories
(`mkdirOk` models whether `createDirectories` throws), attempt the hardlink,
fall back to a copy when the destination is still absent, and reply `OK`. -/
def transferFile (mkdirOk linkAllowed : Bool) (st : FsState) (cmd : Str) :
    XferReply × FsState :=
  match tokensOf cmd with
  | [src, dst] =>
      if mkdirOk then
        match copyFallback (linkStep linkAllowed st.files src dst) src dst with
        | (r, fs) => (r, ⟨fs, parentOf dst :: st.dirs⟩)
      else (XferReply.errMkdir, st)
  | _ => (XferReply.errUsage, st)

/-- Helper: `getTokenInteger` on a well-formed `size=<digits>` token. -/
theorem getTokenInteger_sizeEq (ds : Str) :
    getTokenInteger (strSizeEq ++ ds) strSize = digitsToNat? ds := by
  have hpre : (strSize ++ ['=']).isPrefixOf (strSizeEq ++ ds) = true := by
    have h : strSize ++ ['='] = strSizeEq := by decide
    rw [h]
    exact List.isPrefixOf_iff_prefix.mpr (List.prefix_append _ _)
  have hlen : strSize.length + 1 = strSizeEq.length := by decide
  rw [getTokenInteger, if_pos hpre, hlen, List.drop_left]

/-- Helper: a frame with no newline is its own first line. -/
theorem getFirstLine_of_no_newline (l : Str) (h : ∀ c ∈ l, c ≠ '\n') :
    getFirstLine l = l := by
  induction l with
  | nil => rfl
  | cons c cs ih =>
      have hc : (c != '\n') = true := by
        simpa using h c (List.mem_cons_self c cs)
      have ih2 := ih fun x hx => h x (List.mem_cons_of_mem _ hx)
      simp only [getFirstLine] at ih2 ⊢
      simp [List.takeWhile_cons, hc, ih2]

/-- Helper: a frame containing a newline has a strictly shorter first line. -/
theorem getFirstLine_length_lt_of_newline (l : Str) (h : '\n' ∈ l) :
    (getFirstLine l).length < l.length := by
  induction l with
  | nil => cases h
  | cons c cs ih =>
      by_cases hc : c = '\n'
      · subst hc
        simp [getFirstLine, List.takeWhile_cons]
      · have h2 : '\n' ∈ cs := by
          cases h with
          | head => exact absurd rfl hc
          | tail _ h3 => exact h3
        have := ih h2
        have hcb : (c != '\n') = true := by simpa using hc
        simp only [getFirstLine] at this ⊢
        simp only [List.takeWhile_cons, hcb, if_true, List.length_cons]
        omega

/-- C1 counterexample: the bare queue element `tile` has first token `tile`
and contains no `id=`, so the claim says the canceltiles prune drops it; the
code's predicate requires the five-character prefix `tile ` and keeps it. -/
theorem canceltiles_spec_predicate_counterexample :
    specCancelPred strTile = true
    ∧ cancelPrune [strTile] = [strTile]
    ∧ List.filter (fun x => !(specCancelPred x)) [strTile] = [] := by decide

/-- C1 (amended): on a single-line `canceltiles` frame, the ToClient receiver
replaces the queue by exactly its elements that do not (start with `tile `
and lack `id=`), preserving relative order, and every element containing
`id=` — in particular every `tile` element carrying an `id=` — survives. -/
theorem canceltiles_prunes_by_tile_marker (q hd : List Str) (frame : Str)
    (h1 : (getFirstLine frame).length = frame.length)
    (h2 : tokensOf (getFirstLine frame) = [strCanceltiles]) :
    (stepToClient ⟨q, hd⟩ frame).queue = q.filter (fun x => !(cancelPrunePred x))
    ∧ ∀ x ∈ q, containsSub strIdEq x = true → x ∈ (stepToClient ⟨q, hd⟩ frame).queue := by
  have hdisp : dispatch Kind.ToClient frame = Action.pruneForward := by
    simp [dispatch, h1, h2]
  constructor
  · simp [stepToClient, hdisp, cancelPrune]
  · intro x hx hid
    have hpred : cancelPrunePred x = false := by
      simp [cancelPrunePred, hid]
    simp [stepToClient, hdisp, cancelPrune, List.mem_filter, hx, hpred]

/-- C1 witness: a concrete queue where the unidentified `tile` request is
dropped and the `id=`-carrying one survives. -/
theorem canceltiles_prunes_by_tile_marker_witness :
    (stepToClient ⟨[strTileX1, strTileId3], []⟩ strCanceltiles).queue
      = List.filter (fun x => !(cancelPrunePred x)) [strTileX1, strTileId3]
    ∧ strTileId3 ∈
      (stepToClient ⟨[strTileX1, strTileId3], []⟩ strCanceltiles).queue :=
  ⟨(canceltiles_prunes_by_tile_marker [strTileX1, strTileId3] []
      strCanceltiles (by decide) (by decide)).1,
   (canceltiles_prunes_by_tile_marker [strTileX1, strTileId3] []
      strCanceltiles (by decide) (by decide)).2
      strTileId3 (by decide) (by decide)⟩

/-- C2 counterexample: a single-line `nextmessage: size=5` frame on a
ToClient session is enqueued verbatim — the receiver does not read a
follow-up frame, contrary to the claim. -/
theorem nextmessage_toClient_single_line_counterexample :
    dispatch Kind.ToClient strNm5
      = Action.enqueue strNm5
    ∧ dispatch Kind.ToClient strNm5 ≠ Action.readNext 5 := by
  decide

/-- C2 (amended): the `nextmessage: size=N` escape runs only in the
synchronous branch — on a ToPrisoner session, or on a ToClient frame whose
first line is shorter than the frame.  There, with `N > 0`, the receiver
reads one follow-up frame of capacity `N`, and a nonempty follow-up of at
most `N` bytes is delivered verbatim to `handleInput` (the `nextmessage`
line itself is not delivered). -/
theorem nextmessage_escape (kind : Kind) (frame ds : Str) (N : Nat)
    (h1 : kind = Kind.ToPrisoner ∨ (getFirstLine frame).length ≠ frame.length)
    (h2 : tokensOf (getFirstLine frame) = [strNextmessageColon, strSizeEq ++ ds])
    (h3 : digitsToNat? ds = some N) (h4 : 0 < N) :
    dispatch kind frame = Action.readNext N
    ∧ ∀ next : Str, next ≠ [] → next.length ≤ N → deliverLarge N next false = [next] := by
  have hcond : ¬(kind = Kind.ToClient ∧ (getFirstLine frame).length = frame.length) := by
    rcases h1 with h1 | h1
    · subst h1
      rintro ⟨hk, -⟩
      cases hk
    · rintro ⟨-, hl⟩
      exact h1 hl
  have hns : nextmessageSize (tokensOf (getFirstLine frame)) = some N := by
    rw [h2]
    simp [nextmessageSize, getTokenInteger_sizeEq, h3]
  constructor
  · simp [dispatch, hcond, hns, h4]
  · intro next hne hlen
    have htake : next.take N = next := List.take_of_length_le hlen
    have hpos : 0 < next.length := List.length_pos.mpr hne
    simp [deliverLarge, htake, hpos]

/-- C2 witness: a two-line ToClient frame announcing a 3-byte payload. -/
theorem nextmessage_escape_witness :
    dispatch Kind.ToClient strNm3nl = Action.readNext 3
    ∧ deliverLarge 3 strAbc false = [strAbc] :=
  ⟨(nextmessage_escape Kind.ToClient strNm3nl strThree 3
      (Or.inr (by decide)) (by decide) (by decide) (by decide)).1,
   (nextmessage_escape Kind.ToClient strNm3nl strThree 3
      (Or.inr (by decide)) (by decide) (by decide) (by decide)).2
      strAbc (by decide) (by decide)⟩

/-- C4: a single-line `canceltiles` frame on a ToClient session is handed to
`handleInput` synchronously, bypassing the work queue; on an empty queue the
prune leaves the queue empty and the forward still happens. -/
theorem canceltiles_forwarded_synchronously (q hd : List Str) (frame : Str)
    (h1 : (getFirstLine frame).length = frame.length)
    (h2 : tokensOf (getFirstLine frame) = [strCanceltiles]) :
    (stepToClient ⟨q, hd⟩ frame).handled = hd ++ [frame]
    ∧ (q = [] → stepToClient ⟨q, hd⟩ frame = ⟨[], hd ++ [frame]⟩) := by
  have hdisp : dispatch Kind.ToClient frame = Action.pruneForward := by
    simp [dispatch, h1, h2]
  constructor
  · simp [stepToClient, hdisp]
  · intro hq
    subst hq
    simp [stepToClient, hdisp, cancelPrune]

/-- C4 witness: `canceltiles` on an empty queue still forwards the frame. -/
theorem canceltiles_forwarded_synchronously_witness :
    (stepToClient ⟨[], []⟩ strCanceltiles).handled = [] ++ [strCanceltiles]
    ∧ stepToClient ⟨[], []⟩ strCanceltiles = ⟨[], [] ++ [strCanceltiles]⟩ :=
  ⟨(canceltiles_forwarded_synchronously [] [] strCanceltiles (by decide) (by decide)).1,
   (canceltiles_forwarded_synchronously [] [] strCanceltiles (by decide) (by decide)).2 rfl⟩

/-- C9: on a ToClient session, the canceltiles fast path and the work-queue
enqueue happen exactly when the first line is as long as the frame (a
one-line frame); a frame with more than its first line is handled
synchronously instead — by the nextmessage escape or a direct
`handleInput` — never through the queue. -/
theorem toClient_dispatch_split (frame : Str) :
    ((getFirstLine frame).length = frame.length →
      dispatch Kind.ToClient frame = Action.pruneForward
      ∨ dispatch Kind.ToClient frame = Action.enqueue (getFirstLine frame))
    ∧ ((getFirstLine frame).length ≠ frame.length →
      (∃ n, dispatch Kind.ToClient frame = Action.readNext n)
      ∨ dispatch Kind.ToClient frame = Action.direct) := by
  constructor
  · intro h
    by_cases ht : tokensOf (getFirstLine frame) = [strCanceltiles]
    · left
      simp [dispatch, h, ht]
    · right
      simp [dispatch, h, ht]
  · intro h
    have hcond : ¬(Kind.ToClient = Kind.ToClient ∧ (getFirstLine frame).length = frame.length) :=
      fun hc => h hc.2
    cases hns : nextmessageSize (tokensOf (getFirstLine frame)) with
    | none =>
        right
        simp [dispatch, hcond, hns, h]
    | some n =>
        by_cases hp : 0 < n
        · exact Or.inl ⟨n, by simp [dispatch, hcond, hns, hp, h]⟩
        · right
          simp [dispatch, hcond, hns, hp, h]

/-- C9 witness: a one-line `tile` frame is enqueued; a two-line frame is
handled synchronously. -/
theorem toClient_dispatch_split_witness :
    (dispatch Kind.ToClient strTileX1 = Action.pruneForward
      ∨ dispatch Kind.ToClient strTileX1
          = Action.enqueue (getFirstLine strTileX1))
    ∧ ((∃ n, dispatch Kind.ToClient strTwoLine = Action.readNext n)
      ∨ dispatch Kind.ToClient strTwoLine = Action.direct) :=
  ⟨(toClient_dispatch_split strTileX1).1 (by decide),
   (toClient_dispatch_split strTwoLine).2 (by decide)⟩

/-- C3 counterexample: a regular file whose hardlink is refused makes the
builder call `exit(1)` — jail construction is aborted and no copy happens —
where the claim promises a byte-copy fallback and no abort. -/
theorem link_failure_exits_counterexample :
    linkOrCopyFunction (fun _ => false) ⟨strPathF, FtwType.F, true, true⟩ = StepRes.exited
    ∧ linkOrCopy (fun _ => false) [⟨strPathF, FtwType.F, true, true⟩]
        = RunResult.exited [] := by
  decide

/-- C3 (amended): during template replication every regular file is attempted
as a hardlink, and the first regular file whose hardlink fails aborts jail
construction with `exit(1)`; there is no byte-copy fallback in the tree
walk. -/
theorem link_failure_aborts_jail (linkOk : Str → Bool) (pre : List Entry) (e : Entry)
    (post : List Entry)
    (hpre : ∀ e2 ∈ pre, ∃ b, linkOrCopyFunction linkOk e2 = StepRes.proceed b)
    (hf : e.typ = FtwType.F) (hl : linkOk e.path = false) :
    ∃ fs, linkOrCopy linkOk (pre ++ e :: post) = RunResult.exited fs := by
  induction pre with
  | nil =>
      refine ⟨[], ?_⟩
      have he : linkOrCopyFunction linkOk e = StepRes.exited := by
        unfold linkOrCopyFunction
        rw [hf, hl]
        rfl
      simp [linkOrCopy, he]
  | cons a rest ih =>
      obtain ⟨b, hb⟩ := hpre a (List.mem_cons_self a rest)
      obtain ⟨fs, hfs⟩ := ih fun x hx => hpre x (List.mem_cons_of_mem a hx)
      refine ⟨if b then a.path :: fs else fs, ?_⟩
      simp [linkOrCopy, List.cons_append, hb, hfs]

/-- C3 witness: a walk whose first file links fine and whose second file's
hardlink is refused ends in `exit(1)`. -/
theorem link_failure_aborts_jail_witness :
    ∃ fs, linkOrCopy (fun p => p != strPathBad)
      ([⟨strPathOk, FtwType.F, true, true⟩]
        ++ ⟨strPathBad, FtwType.F, true, true⟩ :: []) = RunResult.exited fs :=
  link_failure_aborts_jail (fun p => p != strPathBad)
    [⟨strPathOk, FtwType.F, true, true⟩] ⟨strPathBad, FtwType.F, true, true⟩ []
    (by decide) rfl (by decide)

/-- C5 counterexample: a known child (pid 5) exits while a session is still
available; the loop detects the death but the child table still contains
pid 5 afterwards — the entry is not removed as the claim states. -/
theorem reaper_no_removal_counterexample :
    (reaperStep ⟨[5], 1, 0⟩ (some (5, true)) 9).1.childProcesses = [5]
    ∧ (reaperStep ⟨[5], 1, 0⟩ (some (5, true)) 9).2.knownChildDied = true := by
  decide

/-- C5 (amended): each reaper iteration non-blockingly waits, detects (and
logs) the exit of a known child without removing its entry, spawns exactly
one child precisely when `availableChildSessions == 0` and
`pendingPreSpawned == 0`, and the loop continues iff the child table is
nonempty. -/
theorem reaper_step_behavior (s : SupState) (waited : Option (Nat × Bool)) (newPid : Nat) :
    (∀ p ∈ s.childProcesses, p ∈ (reaperStep s waited newPid).1.childProcesses)
    ∧ (reaperStep s waited newPid).2.knownChildDied = reaperDetect s waited
    ∧ (s.availableChildSessions = 0 ∧ s.pendingPreSpawned = 0 →
        (reaperStep s waited newPid).1 = createComponent s newPid
        ∧ (reaperStep s waited newPid).2.spawned = true)
    ∧ (¬(s.availableChildSessions = 0 ∧ s.pendingPreSpawned = 0) →
        (reaperStep s waited newPid).1 = s
        ∧ (reaperStep s waited newPid).2.spawned = false)
    ∧ (reaperContinues s = true ↔ s.childProcesses ≠ []) := by
  refine ⟨?_, ?_, ?_, ?_, ?_⟩
  · intro p hp
    unfold reaperStep
    split
    · simp only [createComponent, List.mem_append]
      exact Or.inl hp
    · exact hp
  · unfold reaperStep
    split <;> rfl
  · intro h
    have hb : (s.availableChildSessions == 0 && s.pendingPreSpawned == 0) = true := by
      simp [h.1, h.2]
    constructor <;> simp [reaperStep, hb]
  · intro h
    have hb : (s.availableChildSessions == 0 && s.pendingPreSpawned == 0) = false := by
      rcases not_and_or.mp h with h2 | h2 <;> simp [h2]
    constructor <;> simp [reaperStep, hb]
  · simp [reaperContinues]

/-- C5 witness: the spawn case fires exactly on exhausted availability; a
state with an available session is left unchanged. -/
theorem reaper_step_behavior_witness :
    (reaperStep ⟨[3], 0, 0⟩ (some (3, true)) 7).1 = createComponent ⟨[3], 0, 0⟩ 7
    ∧ (reaperStep ⟨[5], 1, 0⟩ none 7).1 = ⟨[5], 1, 0⟩
    ∧ (reaperContinues ⟨[5], 1, 0⟩ = true ↔ ([5] : List Nat) ≠ []) :=
  ⟨((reaper_step_behavior ⟨[3], 0, 0⟩ (some (3, true)) 7).2.2.1 ⟨rfl, rfl⟩).1,
   ((reaper_step_behavior ⟨[5], 1, 0⟩ none 7).2.2.2.1 (by decide)).1,
   (reaper_step_behavior ⟨[5], 1, 0⟩ none 7).2.2.2.2⟩

/-- Helper: forcing the low bit with `| 1` makes any natural odd. -/
theorem lor_one_mod_two (n : Nat) : (n ||| 1) % 2 = 1 := by
  have h : (n ||| 1).testBit 0 = true := by
    rw [Nat.testBit_lor]
    simp
  simp only [Nat.testBit_zero, decide_eq_true_eq] at h
  exact h

/-- C6: a ChildId built from two pseudorandom 32-bit draws is odd, nonzero,
and fits in 64 bits. -/
theorem childId_nonzero_odd (a b : Nat) :
    makeChildId a b % 2 = 1 ∧ makeChildId a b ≠ 0 ∧ makeChildId a b < 2 ^ 64 := by
  have hodd : makeChildId a b % 2 = 1 := lor_one_mod_two _
  refine ⟨hodd, ?_, ?_⟩
  · intro h0
    rw [h0] at hodd
    simp at hodd
  · have ha : a % 2 ^ 32 < 2 ^ 32 := Nat.mod_lt _ (by norm_num)
    have h1 : (a % 2 ^ 32) <<< 32 < 2 ^ 64 := by
      calc (a % 2 ^ 32) <<< 32 = (a % 2 ^ 32) * 2 ^ 32 := Nat.shiftLeft_eq _ _
        _ < 2 ^ 32 * 2 ^ 32 := Nat.mul_lt_mul_of_lt_of_le ha (le_refl _) (by norm_num)
        _ = 2 ^ 64 := by norm_num
    have h2 : b % 2 ^ 32 < 2 ^ 64 :=
      lt_of_lt_of_le (Nat.mod_lt _ (by norm_num)) (by norm_num)
    have h3 : (a % 2 ^ 32) <<< 32 ||| b % 2 ^ 32 < 2 ^ 64 := Nat.bitwise_lt h1 h2
    have h4 : (1 : Nat) < 2 ^ 64 := by norm_num
    exact Nat.bitwise_lt h3 h4

/-- C6 witness: a concrete pair of draws. -/
theorem childId_nonzero_odd_witness :
    makeChildId 123 456 % 2 = 1 ∧ makeChildId 123 456 ≠ 0 :=
  ⟨(childId_nonzero_odd 123 456).1, (childId_nonzero_odd 123 456).2.1⟩

/-- C7: when the receiver of a ToClient session terminates, the work queue is
cleared and the single `"eof"` sentinel appended, so the consumer observes
exactly `["eof"]` and exits delivering nothing further; independently the
consumer exits right after any item for which `handleInput` returns false. -/
theorem session_close_eof (q : List Str) (handle : Str → Bool) :
    onSessionTerminate q = [strEof]
    ∧ consumerRun handle (onSessionTerminate q) = []
    ∧ ∀ x rest, handle x = false → x ≠ strEof → consumerRun handle (x :: rest) = [x] := by
  refine ⟨rfl, ?_, ?_⟩
  · simp [onSessionTerminate, clearQueue, putQueue, consumerRun]
  · intro x rest hx hne
    simp [consumerRun, hne, hx]

/-- C7 witness: a nonempty queue collapses to the sentinel; a rejected item
stops the consumer immediately. -/
theorem session_close_eof_witness :
    onSessionTerminate [strTileX1] = [strEof]
    ∧ consumerRun (fun _ => false) (strKeyA :: []) = [strKeyA] :=
  ⟨(session_close_eof [strTileX1] fun _ => false).1,
   (session_close_eof [strTileX1] fun _ => false).2.2
      strKeyA [] rfl (by decide)⟩

/-- Helper: a successful copy fallback leaves the destination present. -/
theorem copyFallback_ok_isSome (files : List (Str × Str)) (src dst : Str)
    (hok : (copyFallback files src dst).1 = XferReply.ok) :
    (lookupFile (copyFallback files src dst).2 dst).isSome = true := by
  unfold copyFallback at hok ⊢
  cases hdst : lookupFile files dst with
  | some c => simp [hdst]
  | none =>
      cases hsrc : lookupFile files src with
      | none => simp [hdst, hsrc] at hok
      | some c => simp [hdst, hsrc, lookupFile]

/-- Helper: on a fresh destination, a successful hardlink makes the
destination name the source's contents, and otherwise the file table is
untouched. -/
theorem linkStep_lookup (linkAllowed : Bool) (files : List (Str × Str)) (src dst : Str)
    (_hdst : lookupFile files dst = none) :
    (∃ c, lookupFile files src = some c
        ∧ lookupFile (linkStep linkAllowed files src dst) dst = some c)
    ∨ linkStep linkAllowed files src dst = files := by
  by_cases hcond :
      (linkAllowed && (lookupFile files src).isSome && (lookupFile files dst).isNone) = true
  · left
    have hs : (lookupFile files src).isSome = true := by
      simp only [Bool.and_eq_true] at hcond
      exact hcond.1.2
    obtain ⟨c, hc⟩ := Option.isSome_iff_exists.mp hs
    refine ⟨c, hc, ?_⟩
    rw [linkStep, if_pos hcond]
    simp [lookupFile, hc]
  · right
    rw [linkStep, if_neg hcond]

/-- C8 counterexample: with a stale destination already present, the handler
replies `OK` without touching it, so DST's contents differ from SRC's,
contrary to the claim. -/
theorem transfer_ok_stale_destination_counterexample :
    (transferFile true true ⟨[(['a'], ['X']), (['b'], ['Y'])], []⟩ strCmdAB).1
      = XferReply.ok
    ∧ lookupFile
        (transferFile true true ⟨[(['a'], ['X']), (['b'], ['Y'])], []⟩ strCmdAB).2.files
        ['b'] = some ['Y']
    ∧ lookupFile [(['a'], ['X']), (['b'], ['Y'])] ['a'] = some ['X']
    ∧ some (['Y'] : Str) ≠ some (['X'] : Str) := by
  decide

/-- C8 (amended): when `transferFile` replies `OK` on a two-token command,
the destination's parent directory exists, the destination exists, and —
provided the destination did not already exist before the command — its
contents equal the source's; a pre-existing destination is left as it was. -/
theorem transfer_ok_postcondition (mkdirOk linkAllowed : Bool) (st : FsState)
    (cmd src dst : Str)
    (htok : tokensOf cmd = [src, dst])
    (hok : (transferFile mkdirOk linkAllowed st cmd).1 = XferReply.ok) :
    parentOf dst ∈ (transferFile mkdirOk linkAllowed st cmd).2.dirs
    ∧ (lookupFile (transferFile mkdirOk linkAllowed st cmd).2.files dst).isSome = true
    ∧ (lookupFile st.files dst = none →
        lookupFile (transferFile mkdirOk linkAllowed st cmd).2.files dst
          = lookupFile st.files src) := by
  cases mkdirOk with
  | false =>
      rw [transferFile, htok] at hok
      simp at hok
  | true =>
      have hok2 : (copyFallback (linkStep linkAllowed st.files src dst) src dst).1
          = XferReply.ok := by
        rw [transferFile, htok] at hok
        simpa using hok
      refine ⟨?_, ?_, ?_⟩
      · rw [transferFile, htok]
        simp
      · rw [transferFile, htok]
        simpa using copyFallback_ok_isSome _ src dst hok2
      · intro hpre
        have hgoal :
            lookupFile (copyFallback (linkStep linkAllowed st.files src dst) src dst).2 dst
              = lookupFile st.files src := by
          rcases linkStep_lookup linkAllowed st.files src dst hpre with ⟨c, hsrc, hLdst⟩ | hsame
          · rw [copyFallback, hLdst]
            simp [hLdst, hsrc]
          · rw [hsame, copyFallback, hpre]
            cases hs : lookupFile st.files src with
            | some c => simp [hs, lookupFile]
            | none =>
                rw [hsame, copyFallback, hpre] at hok2
                simp [hs] at hok2
        rw [transferFile, htok]
        simpa using hgoal

/-- C8 witness: a fresh destination under a new directory receives the
source's contents and its parent directory is recorded. -/
theorem transfer_ok_postcondition_witness :
    parentOf strDslashB
        ∈ (transferFile true true ⟨[(['a'], ['X'])], []⟩ strCmdADB).2.dirs
    ∧ (lookupFile (transferFile true true ⟨[(['a'], ['X'])], []⟩ strCmdADB).2.files
        strDslashB).isSome = true
    ∧ lookupFile (transferFile true true ⟨[(['a'], ['X'])], []⟩ strCmdADB).2.files
        strDslashB = lookupFile [(['a'], ['X'])] ['a'] :=
  ⟨(transfer_ok_postcondition true true ⟨[(['a'], ['X'])], []⟩ strCmdADB
      ['a'] strDslashB (by decide) (by decide)).1,
   (transfer_ok_postcondition true true ⟨[(['a'], ['X'])], []⟩ strCmdADB
      ['a'] strDslashB (by decide) (by decide)).2.1,
   (transfer_ok_postcondition true true ⟨[(['a'], ['X'])], []⟩ strCmdADB
      ['a'] strDslashB (by decide) (by decide)).2.2 (by decide)⟩

/-- C10: the child-side receiver delivers at most 1024 bytes of a frame and
asserts the delivered bytes form exactly one line; a one-line frame of at
most 1024 bytes passes the assertion and is delivered intact, a frame with a
newline fails the assertion, and a frame longer than 1024 bytes is not
delivered faithfully — so the assertion is sound only when the master sends
single-line frames of at most 1024 bytes. -/
theorem childReceive_assert_single_line (frame : Str) :
    ((∀ c ∈ frame, c ≠ '\n') → frame.length ≤ 1024 →
        childAssert frame = true ∧ childReceive frame = frame)
    ∧ (frame.length ≤ 1024 → '\n' ∈ frame → childAssert frame = false)
    ∧ (1024 < frame.length → childReceive frame ≠ frame) := by
  refine ⟨?_, ?_, ?_⟩
  · intro hnl hlen
    have ht : childReceive frame = frame := by
      simp [childReceive, List.take_of_length_le hlen]
    exact ⟨by simp [childAssert, ht, getFirstLine_of_no_newline frame hnl], ht⟩
  · intro hlen hmem
    have ht : childReceive frame = frame := by
      simp [childReceive, List.take_of_length_le hlen]
    have hlt := getFirstLine_length_lt_of_newline frame hmem
    simp only [childAssert, ht, beq_eq_false_iff_ne]
    omega
  · intro hlen heq
    have hcong := congrArg List.length heq
    simp [childReceive, List.length_take] at hcong
    omega

/-- C10 witness: a short one-line frame passes the assertion, a two-line
frame fails it, and a 1025-byte frame is truncated. -/
theorem childReceive_assert_single_line_witness :
    childAssert strTileX1 = true
    ∧ childAssert strTwoLine = false
    ∧ childReceive (List.replicate 1025 'a') ≠ List.replicate 1025 'a' :=
  ⟨((childReceive_assert_single_line strTileX1).1 (by decide) (by decide)).1,
   (childReceive_assert_single_line strTwoLine).2.1 (by decide) (by decide),
   (childReceive_assert_single_line (List.replicate 1025 'a')).2.2
      (by simp [List.length_replicate])⟩

end Loolwsd
